import Mathlib

/-
Shallow embedding of src/weather-logger.py, a single-threaded weather
logging loop: sensor sampling, batched SQLite writes, daily retention
purge, CSV export and half-hourly git synchronisation.

Modelling conventions:
- SQLite rows are a list of Reading values; INSERT OR IGNORE, range
  SELECT and range DELETE are list operations (the PRIMARY KEY on
  timestamp makes keys unique in reachable stores).
- Timestamps, dates and minute identifiers are the ISO-8601 strings the
  program actually stores and compares; lexicographic string order on
  these fixed-width formats coincides with chronological order.
- Side effects (connection open and close, commits, alert-log lines,
  git subprocess calls) are recorded as an explicit event list.
- External inputs of one loop iteration (the monotonic clock values,
  the wall clock, the sensor read outcome, database commit success,
  the connectivity probe, the git outcome) form a TickEnv record.
- Sensor values are rationals; round(x, 2) is modelled exactly on Rat.
-/

namespace WeatherLogger

/-- Seconds between sensor reads (line 21). -/
def LOG_INTERVAL : Nat := 60

/-- Seconds between SQLite commits (line 22). -/
def DB_FLUSH_INTERVAL : Nat := 300

/-- Max samples before forced commit (line 23). -/
def DB_BATCH_SIZE : Nat := 5

/-- Data retention horizon in days (line 25). -/
def RETENTION_DAYS : Nat := 365

/-- Models Python round(x, 2) on exact rationals. -/
def round2 (q : Rat) : Rat := (round (q * 100) : Int) / 100

/-- Timestamp-like text (ISO-8601 timestamps, dates, minute
identifiers), modelled as its character list: SQLite compares the TEXT
column lexicographically, which is the lexicographic order on the
character list. -/
abbrev Ts : Type := List Char

/-- One row of the readings table (lines 52-60): timestamp is the
ISO-8601 primary key, the four measurements are numeric. -/
structure Reading where
  timestamp : Ts
  temp_c : Rat
  temp_f : Rat
  pressure_hpa : Rat
  humidity : Rat
deriving DecidableEq

/-- Observable side effects of the program, in program order. -/
inductive Ev where
  | connOpen
  | connClose
  | commit
  | alert (msg : String)
  | git (cmd : String)
deriving DecidableEq

instance {ε α : Type} [DecidableEq ε] [DecidableEq α] : DecidableEq (Except ε α) :=
  fun a b =>
    match a, b with
    | .error e, .error f => decidable_of_iff (e = f) (by simp)
    | .ok x, .ok y => decidable_of_iff (x = y) (by simp)
    | .error _, .ok _ => isFalse (by simp)
    | .ok _, .error _ => isFalse (by simp)

/-- log_alert (lines 80-85): appends one timestamped line to ALERTS.log
and mirrors the message on stdout. -/
def log_alert (message : String) : List Ev := [Ev.alert message]

/-- One INSERT OR IGNORE of a row (lines 211-214): skipped silently when
the primary key (timestamp) is already present. -/
def insertOrIgnore (store : List Reading) (r : Reading) : List Reading :=
  if store.any (fun q => q.timestamp == r.timestamp) then store else store ++ [r]

/-- conn.executemany of INSERT OR IGNORE over a whole batch
(lines 211-214 and 238-241). -/
def insertReadings (store : List Reading) (batch : List Reading) : List Reading :=
  batch.foldl insertOrIgnore store

/-- Ascending timestamp order used by ORDER BY timestamp ASC. -/
def tsLE (a b : Reading) : Prop := a.timestamp ≤ b.timestamp

instance : DecidableRel tsLE :=
  fun a b => inferInstanceAs (Decidable (a.timestamp ≤ b.timestamp))

instance : IsTotal Reading tsLE :=
  ⟨fun a b => le_total a.timestamp b.timestamp⟩

instance : IsTrans Reading tsLE :=
  ⟨fun _ _ _ hab hbc => le_trans hab hbc⟩

/-- SELECT timestamp, temp_c, temp_f, pressure_hpa, humidity FROM
readings WHERE timestamp >= cutoff ORDER BY timestamp ASC
(lines 97-109). -/
def queryRangeAsc (store : List Reading) (cutoff : Ts) : List Reading :=
  List.insertionSort tsLE (store.filter (fun r => decide (cutoff ≤ r.timestamp)))

/-- The CSV header row written by export_last_week (lines 118-124). -/
def csvHeader : List String :=
  ["timestamp", "temp_c", "temp_f", "pressure_hpa", "humidity"]

/-- One CSV data row for a reading, in fixed column order. -/
def Reading.toRow (r : Reading) : List String :=
  [String.mk r.timestamp, toString r.temp_c, toString r.temp_f,
   toString r.pressure_hpa, toString r.humidity]

/-- Contents of the weather-last-week.csv file; none means the file is
in its prior (possibly absent) state. -/
abbrev CsvFile : Type := List (List String)

/-- Result of export_last_week: the resulting state of the destination
file and the side effects performed. -/
structure ExportOut where
  file : Option CsvFile
  events : List Ev

/-- export_last_week (lines 87-130): opens a fresh connection, reads the
7-day window in ascending timestamp order, closes the connection; with
zero rows it logs a no-data alert and leaves the destination file
untouched; otherwise it fully overwrites the destination with the
header row followed by one row per reading. -/
def export_last_week (store : List Reading) (cutoff : Ts)
    (prior : Option CsvFile) : ExportOut :=
  let rows := queryRangeAsc store cutoff
  if rows.isEmpty then
    { file := prior
      events := [Ev.connOpen, Ev.connClose] ++ log_alert "[CSV WEEKLY] No data found" }
  else
    { file := some (csvHeader :: rows.map Reading.toRow)
      events := [Ev.connOpen, Ev.connClose] ++
        log_alert ("[CSV WEEKLY] Updated (" ++ toString rows.length ++ " rows)") }

/-- Outcome of the three git subprocess calls (lines 142-155): either
all succeed, or the first failure raises CalledProcessError. -/
inductive GitResult where
  | ok
  | failAdd
  | failCommit
  | failPush
deriving DecidableEq

/-- The git subprocesses that actually run: subprocess.run with
check=True raises after the failing command has executed, so later
commands do not run. -/
def gitCmds : GitResult → List Ev
  | .ok => [Ev.git "add", Ev.git "commit", Ev.git "push"]
  | .failAdd => [Ev.git "add"]
  | .failCommit => [Ev.git "add", Ev.git "commit"]
  | .failPush => [Ev.git "add", Ev.git "commit", Ev.git "push"]

/-- Result of push_git: the resulting export file state and the side
effects performed. -/
structure PushOut where
  file : Option CsvFile
  events : List Ev

/-- push_git (lines 132-158): first runs export_last_week, then probes
connectivity (is_online, lines 72-77, modelled by the online flag);
when offline it logs a skip alert and returns before any git
subprocess; when online it runs add, commit, push, logging success or
the single CalledProcessError. -/
def push_git (store : List Reading) (exportCutoff : Ts)
    (prior : Option CsvFile) (online : Bool) (git : GitResult) : PushOut :=
  let ex := export_last_week store exportCutoff prior
  if !online then
    { file := ex.file
      events := ex.events ++ log_alert "[GIT] Offline, push skipped" }
  else
    { file := ex.file
      events := ex.events ++ gitCmds git ++
        (match git with
         | .ok => log_alert "[GIT] Push successful"
         | _ => log_alert "[GIT ERROR] CalledProcessError") }

/-- purge_old_data (lines 161-168): DELETE FROM readings WHERE
timestamp < cutoff, commit, then a fixed alert regardless of row
count. The cutoff models (now - 365 days).isoformat(). -/
def purge_old_data (store : List Reading) (cutoff : Ts) :
    List Reading × List Ev :=
  (store.filter (fun r => decide (¬ r.timestamp < cutoff)),
   [Ev.commit] ++ log_alert "[DB] Old data purged")

/-- The sensor values produced by one successful BME280 read
(sensor.temperature, sensor.pressure, sensor.humidity). -/
structure SensorTriple where
  temperature : Rat
  pressure : Rat
  humidity : Rat
deriving DecidableEq

/-- A fault that escapes one loop iteration: a raised sensor-read
exception, or a failed executemany/commit in the flush block. Neither
is a KeyboardInterrupt, so neither is caught by the handler at
line 236. -/
inductive TickErr where
  | sensorFault
  | dbError
deriving DecidableEq

/-- External inputs of one iteration of the main loop. monoA..monoD are
the four successive time.monotonic() calls (lines 188, 189, 209, 217);
nowIso, nowDate, nowMinute and intervalId are derived from the single
datetime.now() of the tick (lines 183, 197, 222, 229); purgeCutoff
models (now - 365 days).isoformat() (line 162); exportCutoff models
(now - 7 days).isoformat(timespec seconds) (line 91); sensor is the
BME280 read result, none modelling a raised exception; dbOk tells
whether executemany/commit succeed in the flush block; online is the
result of the is_online TCP probe; git is the subprocess outcome. -/
structure TickEnv where
  monoA : Nat
  monoB : Nat
  monoC : Nat
  monoD : Nat
  nowIso : Ts
  nowDate : Ts
  nowMinute : Nat
  intervalId : Ts
  purgeCutoff : Ts
  exportCutoff : Ts
  sensor : Option SensorTriple
  dbOk : Bool
  online : Bool
  git : GitResult

/-- Mutable state of the main loop (lines 175-179) together with the
world state it owns: the readings table and the export file. -/
structure LoopState where
  buffer : List Reading
  store : List Reading
  csvLastWeek : Option CsvFile
  lastLog : Nat
  lastFlush : Nat
  lastGitPush : Option Ts
  lastPurgeDay : Option Ts
deriving DecidableEq

/-- The state just after startup (lines 175-179): empty buffer, the
readings already in the database file, whatever export file exists,
both monotonic marks at the startup clock value, and the git-push and
purge-day markers unset. -/
def initState (store0 : List Reading) (csv0 : Option CsvFile) (m0 : Nat) :
    LoopState :=
  { buffer := [],
    store := store0,
    csvLastWeek := csv0,
    lastLog := m0,
    lastFlush := m0,
    lastGitPush := none,
    lastPurgeDay := none }

/-- Sensor-read block (lines 188-202). When due, last_log is reset and
the sensor is read; a raised sensor exception propagates (there is no
try/except around the read); on success one reading is appended to the
in-memory buffer. -/
def sampleStep (env : TickEnv) (s : LoopState) :
    Except TickErr (LoopState × List Ev) :=
  if LOG_INTERVAL ≤ env.monoA - s.lastLog then
    match env.sensor with
    | none => .error .sensorFault
    | some m =>
      let tc := round2 m.temperature
      let tf := round2 (tc * 1.8 + 32)
      let pr := round2 m.pressure
      let hu := round2 m.humidity
      .ok ({ s with
              lastLog := env.monoB,
              buffer := s.buffer ++ [⟨env.nowIso, tc, tf, pr, hu⟩] }, [])
  else .ok (s, [])

/-- Flush block (lines 207-217): due when the buffer holds at least
DB_BATCH_SIZE readings or DB_FLUSH_INTERVAL seconds of monotonic time
have passed since the last flush; the whole buffer is inserted with
INSERT OR IGNORE and committed, and only then is the buffer cleared
and the flush mark reset. A failed executemany/commit propagates. -/
def flushStep (env : TickEnv) (s : LoopState) :
    Except TickErr (LoopState × List Ev) :=
  if DB_BATCH_SIZE ≤ s.buffer.length ∨ DB_FLUSH_INTERVAL ≤ env.monoC - s.lastFlush then
    if env.dbOk then
      .ok ({ s with
              store := insertReadings s.store s.buffer,
              buffer := [],
              lastFlush := env.monoD }, [Ev.commit])
    else .error .dbError
  else .ok (s, [])

/-- The purge due-condition (line 222): the current date differs from
the date of the last purge (initially unset). -/
def purgeFires (env : TickEnv) (s : LoopState) : Bool :=
  s.lastPurgeDay != some env.nowDate

/-- Daily purge block (lines 222-224): when due, the purge-day marker
is set to the current date and purge_old_data runs. -/
def purgeStep (env : TickEnv) (s : LoopState) : LoopState × List Ev :=
  if purgeFires env s then
    let p := purge_old_data s.store env.purgeCutoff
    ({ s with lastPurgeDay := some env.nowDate, store := p.1 }, p.2)
  else (s, [])

/-- The sync due-condition (line 230): the wall-clock minute is a
multiple of 30 and the (date, hour, minute) identifier differs from
the identifier of the last successful-or-attempted push. -/
def syncFires (env : TickEnv) (s : LoopState) : Bool :=
  env.nowMinute % 30 == 0 && s.lastGitPush != some env.intervalId

/-- Git-push block (lines 229-232): when due, the push marker is set to
the current identifier before push_git runs. -/
def gitStep (env : TickEnv) (s : LoopState) : LoopState × List Ev :=
  if syncFires env s then
    let out := push_git s.store env.exportCutoff s.csvLastWeek env.online env.git
    ({ s with
        lastGitPush := some env.intervalId,
        csvLastWeek := out.file }, out.events)
  else (s, [])

/-- One iteration of the main while loop (lines 182-234): sensor read,
then flush, then daily purge, then git push, in that fixed order. A
fault raised in the sensor or flush block aborts the iteration and
propagates out of the loop. -/
def tick (env : TickEnv) (s : LoopState) : Except TickErr (LoopState × List Ev) :=
  match sampleStep env s with
  | .error e => .error e
  | .ok (s1, e1) =>
    match flushStep env s1 with
    | .error e => .error e
    | .ok (s2, e2) =>
      let p3 := purgeStep env s2
      let p4 := gitStep env p3.1
      .ok (p4.1, e1 ++ e2 ++ p3.2 ++ p4.2)

/-- The main loop run over a finite sequence of tick environments; a
fault raised inside a tick aborts the run. -/
def runLoop : List TickEnv → LoopState → Except TickErr (LoopState × List Ev)
  | [], s => .ok (s, [])
  | env :: rest, s =>
    match tick env s with
    | .error e => .error e
    | .ok (s', evs) =>
      match runLoop rest s' with
      | .error e => .error e
      | .ok (s'', evs') => .ok (s'', evs ++ evs')

/-- Startup side effects (lines 47-67 and 173): the single connection
open, the schema commit and the start alert. -/
def startupEvs : List Ev :=
  [Ev.connOpen, Ev.commit] ++ log_alert "SQLite weather logger started"

/-- KeyboardInterrupt handler (lines 236-244): a non-empty buffer is
inserted and committed, then the connection is closed, then the final
alert is logged; the loop is not re-entered. -/
def shutdownStep (s : LoopState) : LoopState × List Ev :=
  if s.buffer.isEmpty then
    (s, [Ev.connClose] ++ log_alert "Logger stopped cleanly")
  else
    ({ s with store := insertReadings s.store s.buffer },
     [Ev.commit, Ev.connClose] ++ log_alert "Logger stopped cleanly")

/-- Whole process run: startup, the main loop until an external
interrupt arrives after the given ticks, then the interrupt handler.
A sensor or database fault is not caught and aborts the process. -/
def runProgram (store0 : List Reading) (csv0 : Option CsvFile) (m0 : Nat)
    (envs : List TickEnv) : Except TickErr (LoopState × List Ev) :=
  match runLoop envs (initState store0 csv0 m0) with
  | .error e => .error e
  | .ok (s, evs) =>
    let p := shutdownStep s
    .ok (p.1, startupEvs ++ evs ++ p.2)

/-- The ticks of a run on which the sync action fires, in order; a
faulting tick fires nothing and ends the run. -/
def syncFireTicks : List TickEnv → LoopState → List TickEnv
  | [], _ => []
  | env :: rest, s =>
    match tick env s with
    | .error _ => []
    | .ok (s', _) =>
      (if syncFires env s then [env] else []) ++ syncFireTicks rest s'

/-- The ticks of a run on which the daily purge fires, in order; a
faulting tick fires nothing and ends the run. -/
def purgeFireTicks : List TickEnv → LoopState → List TickEnv
  | [], _ => []
  | env :: rest, s =>
    match tick env s with
    | .error _ => []
    | .ok (s', _) =>
      (if purgeFires env s then [env] else []) ++ purgeFireTicks rest s'

/-- The PRIMARY KEY invariant of the readings table: timestamps are
pairwise distinct. -/
def keysNodup (store : List Reading) : Prop :=
  (store.map Reading.timestamp).Nodup

/-- A concrete reading with a one-character timestamp, used to evaluate
the development on closed inputs. -/
def wr (c : Char) : Reading := ⟨[c], 0, 32, 0, 0⟩

/-- A concrete quiet tick environment: sample and flush not due, minute
not a sync boundary, sensor healthy, database healthy, offline. -/
def wEnv : TickEnv :=
  { monoA := 0, monoB := 0, monoC := 0, monoD := 0,
    nowIso := "t".toList, nowDate := "d".toList, nowMinute := 1,
    intervalId := "i".toList, purgeCutoff := "a".toList,
    exportCutoff := "a".toList, sensor := some ⟨21, 1000, 50⟩,
    dbOk := true, online := false, git := .ok }

/-- A concrete tick environment whose sample is due and whose sensor
read raises. -/
def wEnvFault : TickEnv := { wEnv with monoA := 60, sensor := none }

/-- A concrete tick environment on a half-hour boundary. -/
def wEnvSync : TickEnv := { wEnv with nowMinute := 0 }

/-- A concrete loop state holding a full batch of five readings. -/
def wBuf5 : LoopState :=
  { initState [] none 0 with
      buffer := [wr 'a', wr 'b', wr 'c', wr 'd', wr 'e'] }

theorem mem_insertOrIgnore_of_mem {store : List Reading} {q r : Reading}
    (h : q ∈ store) : q ∈ insertOrIgnore store r := by
  unfold insertOrIgnore
  split
  · exact h
  · exact List.mem_append_left _ h

theorem exists_ts_insertOrIgnore (store : List Reading) (r : Reading) :
    ∃ q ∈ insertOrIgnore store r, q.timestamp = r.timestamp := by
  unfold insertOrIgnore
  split
  · next h =>
    rcases List.any_eq_true.mp h with ⟨q, hq, hqr⟩
    exact ⟨q, hq, by simpa using hqr⟩
  · exact ⟨r, List.mem_append_right _ (List.mem_singleton_self r), rfl⟩

theorem mem_insertReadings_of_mem {batch store : List Reading} {q : Reading}
    (h : q ∈ store) : q ∈ insertReadings store batch := by
  induction batch generalizing store with
  | nil => exact h
  | cons b bs ih => exact ih (mem_insertOrIgnore_of_mem h)

theorem exists_ts_insertReadings_of_exists {batch store : List Reading} {t : Ts}
    (h : ∃ q ∈ store, q.timestamp = t) :
    ∃ q ∈ insertReadings store batch, q.timestamp = t := by
  rcases h with ⟨q, hq, ht⟩
  exact ⟨q, mem_insertReadings_of_mem hq, ht⟩

theorem insertReadings_covers {batch store : List Reading} {r : Reading}
    (h : r ∈ batch) :
    ∃ q ∈ insertReadings store batch, q.timestamp = r.timestamp := by
  induction batch generalizing store with
  | nil => cases h
  | cons b bs ih =>
    rcases List.mem_cons.mp h with rfl | hmem
    · show ∃ q ∈ insertReadings (insertOrIgnore store r) bs, q.timestamp = r.timestamp
      exact exists_ts_insertReadings_of_exists (exists_ts_insertOrIgnore store r)
    · exact ih hmem

theorem keysNodup_insertOrIgnore {store : List Reading} {r : Reading}
    (h : keysNodup store) : keysNodup (insertOrIgnore store r) := by
  unfold insertOrIgnore
  split
  · exact h
  · next hany =>
    unfold keysNodup at h ⊢
    rw [List.map_append, List.nodup_append]
    refine ⟨h, List.nodup_singleton _, ?_⟩
    intro t ht ht'
    rcases List.mem_map.mp ht with ⟨q, hq, hqt⟩
    have ht'' : t = r.timestamp := by simpa using ht'
    exact hany (List.any_eq_true.mpr ⟨q, hq, by simp [hqt, ht'']⟩)

theorem keysNodup_insertReadings {batch store : List Reading}
    (h : keysNodup store) : keysNodup (insertReadings store batch) := by
  induction batch generalizing store with
  | nil => exact h
  | cons b bs ih => exact ih (keysNodup_insertOrIgnore h)

theorem countP_eq_one_of_nodup {l : List Ts} {t : Ts} (hnd : l.Nodup) (h : t ∈ l) :
    l.countP (fun x => decide (x = t)) = 1 := by
  induction l with
  | nil => cases h
  | cons a as ih =>
    rw [List.countP_cons]
    rcases List.nodup_cons.mp hnd with ⟨hna, hnd2⟩
    rcases List.mem_cons.mp h with h1 | hmem
    · subst h1
      have h0 : as.countP (fun x => decide (x = t)) = 0 := by
        rw [List.countP_eq_zero]
        intro x hx
        simp only [decide_eq_true_eq]
        intro e
        exact hna (e ▸ hx)
      simp [h0]
    · have ha : ¬ (a = t) := fun e => hna (by rw [e]; exact hmem)
      simp [ha, ih hnd2 hmem]

theorem countP_ts_eq_one {store : List Reading} {t : Ts} (hnd : keysNodup store)
    (hmem : ∃ q ∈ store, q.timestamp = t) :
    store.countP (fun q => decide (q.timestamp = t)) = 1 := by
  have h1 : store.countP (fun q => decide (q.timestamp = t)) =
      (store.map Reading.timestamp).countP (fun x => decide (x = t)) := by
    rw [List.countP_map]
    rfl
  rcases hmem with ⟨q, hq, hqt⟩
  have h2 : t ∈ store.map Reading.timestamp := List.mem_map.mpr ⟨q, hq, hqt⟩
  rw [h1]
  exact countP_eq_one_of_nodup hnd h2

theorem mem_queryRangeAsc {store : List Reading} {cutoff : Ts} {r : Reading} :
    r ∈ queryRangeAsc store cutoff ↔ r ∈ store ∧ cutoff ≤ r.timestamp := by
  unfold queryRangeAsc
  rw [List.mem_insertionSort, List.mem_filter]
  simp

theorem sorted_queryRangeAsc (store : List Reading) (cutoff : Ts) :
    List.Sorted tsLE (queryRangeAsc store cutoff) :=
  List.sorted_insertionSort tsLE _

theorem length_queryRangeAsc (store : List Reading) (cutoff : Ts) :
    (queryRangeAsc store cutoff).length =
      (store.filter (fun r => decide (cutoff ≤ r.timestamp))).length :=
  List.length_insertionSort tsLE _

theorem syncFires_congr {env : TickEnv} {s s' : LoopState}
    (h : s'.lastGitPush = s.lastGitPush) : syncFires env s' = syncFires env s := by
  unfold syncFires
  rw [h]

theorem purgeFires_congr {env : TickEnv} {s s' : LoopState}
    (h : s'.lastPurgeDay = s.lastPurgeDay) : purgeFires env s' = purgeFires env s := by
  unfold purgeFires
  rw [h]

theorem export_connCount (store : List Reading) (cutoff : Ts)
    (prior : Option CsvFile) :
    (export_last_week store cutoff prior).events.count Ev.connOpen = 1 ∧
    (export_last_week store cutoff prior).events.count Ev.connClose = 1 := by
  unfold export_last_week log_alert
  dsimp only
  split <;> simp [List.count_cons]

theorem push_git_connCount (store : List Reading) (cutoff : Ts)
    (prior : Option CsvFile) (online : Bool) (git : GitResult) :
    (push_git store cutoff prior online git).events.count Ev.connOpen = 1 ∧
    (push_git store cutoff prior online git).events.count Ev.connClose = 1 := by
  rcases export_connCount store cutoff prior with ⟨ho, hc⟩
  unfold push_git
  cases online <;> cases git <;>
    simp [List.count_append, List.count_cons, gitCmds, log_alert, ho, hc]

theorem sampleStep_ok {env : TickEnv} {s s1 : LoopState} {e1 : List Ev}
    (h : sampleStep env s = .ok (s1, e1)) :
    s1.store = s.store ∧ s1.csvLastWeek = s.csvLastWeek ∧
    s1.lastGitPush = s.lastGitPush ∧ s1.lastPurgeDay = s.lastPurgeDay ∧
    e1 = [] := by
  unfold sampleStep at h
  split at h
  · split at h
    · exact Except.noConfusion h
    · simp only [Except.ok.injEq, Prod.mk.injEq] at h
      obtain ⟨hs, he⟩ := h
      subst hs
      subst he
      exact ⟨rfl, rfl, rfl, rfl, rfl⟩
  · simp only [Except.ok.injEq, Prod.mk.injEq] at h
    obtain ⟨hs, he⟩ := h
    subst hs
    subst he
    exact ⟨rfl, rfl, rfl, rfl, rfl⟩

theorem flushStep_ok {env : TickEnv} {s s2 : LoopState} {e2 : List Ev}
    (h : flushStep env s = .ok (s2, e2)) :
    s2.csvLastWeek = s.csvLastWeek ∧ s2.lastGitPush = s.lastGitPush ∧
    s2.lastPurgeDay = s.lastPurgeDay ∧ (e2 = [] ∨ e2 = [Ev.commit]) := by
  unfold flushStep at h
  split at h
  · split at h
    · simp only [Except.ok.injEq, Prod.mk.injEq] at h
      obtain ⟨hs, he⟩ := h
      subst hs
      subst he
      exact ⟨rfl, rfl, rfl, Or.inr rfl⟩
    · exact Except.noConfusion h
  · simp only [Except.ok.injEq, Prod.mk.injEq] at h
    obtain ⟨hs, he⟩ := h
    subst hs
    subst he
    exact ⟨rfl, rfl, rfl, Or.inl rfl⟩

theorem purgeStep_fields (env : TickEnv) (s : LoopState) :
    (purgeStep env s).1.lastGitPush = s.lastGitPush ∧
    (purgeStep env s).1.csvLastWeek = s.csvLastWeek ∧
    (purgeStep env s).1.buffer = s.buffer ∧
    (purgeStep env s).1.lastPurgeDay =
      (if purgeFires env s then some env.nowDate else s.lastPurgeDay) ∧
    (purgeStep env s).2 =
      (if purgeFires env s then [Ev.commit, Ev.alert "[DB] Old data purged"] else []) := by
  unfold purgeStep
  split
  · next hc => simp [purge_old_data, log_alert, hc]
  · next hc => simp [hc]

theorem gitStep_fields (env : TickEnv) (s : LoopState) :
    (gitStep env s).1.lastPurgeDay = s.lastPurgeDay ∧
    (gitStep env s).1.buffer = s.buffer ∧
    (gitStep env s).1.store = s.store ∧
    (gitStep env s).1.lastGitPush =
      (if syncFires env s then some env.intervalId else s.lastGitPush) ∧
    (gitStep env s).2.count Ev.connOpen = (if syncFires env s then 1 else 0) ∧
    (gitStep env s).2.count Ev.connClose = (if syncFires env s then 1 else 0) := by
  unfold gitStep
  split
  · next hc =>
    rcases push_git_connCount s.store env.exportCutoff s.csvLastWeek env.online env.git
      with ⟨ho, hcl⟩
    simp [hc, ho, hcl]
  · next hc => simp [hc]

theorem tick_ok_inv {env : TickEnv} {s s' : LoopState} {evs : List Ev}
    (h : tick env s = .ok (s', evs)) :
    s'.lastGitPush = (if syncFires env s then some env.intervalId else s.lastGitPush) ∧
    s'.lastPurgeDay = (if purgeFires env s then some env.nowDate else s.lastPurgeDay) ∧
    evs.count Ev.connOpen = (if syncFires env s then 1 else 0) ∧
    evs.count Ev.connClose = (if syncFires env s then 1 else 0) := by
  unfold tick at h
  cases h1 : sampleStep env s with
  | error e =>
    simp only [h1] at h
    exact Except.noConfusion h
  | ok p1 =>
    obtain ⟨s1, e1⟩ := p1
    simp only [h1] at h
    cases h2 : flushStep env s1 with
    | error e =>
      simp only [h2] at h
      exact Except.noConfusion h
    | ok p2 =>
      obtain ⟨s2, e2⟩ := p2
      simp only [h2] at h
      simp only [Except.ok.injEq, Prod.mk.injEq] at h
      obtain ⟨hs, he⟩ := h
      obtain ⟨hst1, hcsv1, hgit1, hpd1, he1⟩ := sampleStep_ok h1
      obtain ⟨hcsv2, hgit2, hpd2, he2⟩ := flushStep_ok h2
      obtain ⟨pgit, pcsv, pbuf, ppd, pev⟩ := purgeStep_fields env s2
      obtain ⟨ggd, gbuf, gst, ggit, gopen, gclose⟩ := gitStep_fields env (purgeStep env s2).1
      have hsync3 : syncFires env (purgeStep env s2).1 = syncFires env s :=
        syncFires_congr (by rw [pgit, hgit2, hgit1])
      have hpurge2 : purgeFires env s2 = purgeFires env s :=
        purgeFires_congr (by rw [hpd2, hpd1])
      refine ⟨?_, ?_, ?_, ?_⟩
      · rw [← hs, ggit, hsync3, pgit, hgit2, hgit1]
      · rw [← hs, ggd, ppd, hpurge2, hpd2, hpd1]
      · rw [← he, he1, pev]
        rcases he2 with rfl | rfl <;> cases hpf : purgeFires env s2 <;>
          simp [hpf, List.count_append, List.count_cons, gopen, hsync3]
      · rw [← he, he1, pev]
        rcases he2 with rfl | rfl <;> cases hpf : purgeFires env s2 <;>
          simp [hpf, List.count_append, List.count_cons, gclose, hsync3]

theorem tick_ok_purge_alert {env : TickEnv} {s s' : LoopState} {evs : List Ev}
    (h : tick env s = .ok (s', evs)) (hf : purgeFires env s = true) :
    Ev.alert "[DB] Old data purged" ∈ evs := by
  unfold tick at h
  cases h1 : sampleStep env s with
  | error e =>
    simp only [h1] at h
    exact Except.noConfusion h
  | ok p1 =>
    obtain ⟨s1, e1⟩ := p1
    simp only [h1] at h
    cases h2 : flushStep env s1 with
    | error e =>
      simp only [h2] at h
      exact Except.noConfusion h
    | ok p2 =>
      obtain ⟨s2, e2⟩ := p2
      simp only [h2] at h
      simp only [Except.ok.injEq, Prod.mk.injEq] at h
      obtain ⟨hs, he⟩ := h
      obtain ⟨hst1, hcsv1, hgit1, hpd1, he1⟩ := sampleStep_ok h1
      obtain ⟨hcsv2, hgit2, hpd2, he2⟩ := flushStep_ok h2
      obtain ⟨pgit, pcsv, pbuf, ppd, pev⟩ := purgeStep_fields env s2
      have hcongr : purgeFires env s2 = purgeFires env s :=
        purgeFires_congr (by rw [hpd2, hpd1])
      have hp2 : purgeFires env s2 = true := by rw [hcongr, hf]
      rw [← he, pev, hp2]
      simp

theorem syncFireTicks_subset {envs : List TickEnv} {s : LoopState} {e : TickEnv}
    (h : e ∈ syncFireTicks envs s) : e ∈ envs := by
  induction envs generalizing s with
  | nil =>
    unfold syncFireTicks at h
    cases h
  | cons a rest ih =>
    unfold syncFireTicks at h
    cases ht : tick a s with
    | error er =>
      simp only [ht] at h
      cases h
    | ok p =>
      obtain ⟨s', evs⟩ := p
      simp only [ht] at h
      rcases List.mem_append.mp h with h' | h'
      · by_cases hf : syncFires a s
        · simp [hf] at h'
          simp [h']
        · simp [hf] at h'
      · exact List.mem_cons_of_mem _ (ih h')

theorem syncFires_true_ne {env : TickEnv} {s : LoopState}
    (h : syncFires env s = true) : s.lastGitPush ≠ some env.intervalId := by
  simp only [syncFires, Bool.and_eq_true, bne_iff_ne] at h
  exact h.2

theorem syncFire_latch {envs : List TickEnv} {s : LoopState} {i : Ts}
    (hlast : s.lastGitPush = some i)
    (hge : ∀ e ∈ envs, i ≤ e.intervalId)
    (hsorted : (envs.map TickEnv.intervalId).Pairwise (· ≤ ·)) :
    i ∉ (syncFireTicks envs s).map TickEnv.intervalId := by
  induction envs generalizing s with
  | nil =>
    unfold syncFireTicks
    simp
  | cons a rest ih =>
    unfold syncFireTicks
    have hs2 : (∀ b ∈ rest, a.intervalId ≤ b.intervalId) ∧
        (rest.map TickEnv.intervalId).Pairwise (· ≤ ·) := by
      simpa using hsorted
    obtain ⟨hhead, htail⟩ := hs2
    cases ht : tick a s with
    | error er => simp
    | ok p =>
      obtain ⟨s', evs⟩ := p
      by_cases hf : syncFires a s
      · have hne : i ≠ a.intervalId := fun e => syncFires_true_ne hf (by rw [hlast, e])
        have hlt : i < a.intervalId := lt_of_le_of_ne (hge a (List.mem_cons_self a rest)) hne
        simp only [hf, if_true, List.map_append, List.map_cons]
        intro hmem
        rcases List.mem_append.mp hmem with h' | h'
        · exact hne (by simpa using h')
        · rcases List.mem_map.mp h' with ⟨e', he', hei⟩
          have he'' : e' ∈ rest := syncFireTicks_subset he'
          have hlt2 : i < e'.intervalId := lt_of_lt_of_le hlt (hhead _ he'')
          rw [hei] at hlt2
          exact lt_irrefl i hlt2
      · have hlast' : s'.lastGitPush = some i := by
          rcases tick_ok_inv ht with ⟨hg, -, -, -⟩
          rw [hg]
          simp [hf, hlast]
        simp only [hf, if_false, List.nil_append]
        exact ih hlast' (fun e he => hge e (List.mem_cons_of_mem _ he)) htail

theorem syncFire_count {envs : List TickEnv} {s : LoopState}
    (hsorted : (envs.map TickEnv.intervalId).Pairwise (· ≤ ·)) (i : Ts) :
    ((syncFireTicks envs s).map TickEnv.intervalId).count i ≤ 1 := by
  induction envs generalizing s with
  | nil =>
    unfold syncFireTicks
    simp
  | cons a rest ih =>
    unfold syncFireTicks
    have hs2 : (∀ b ∈ rest, a.intervalId ≤ b.intervalId) ∧
        (rest.map TickEnv.intervalId).Pairwise (· ≤ ·) := by
      simpa using hsorted
    obtain ⟨hhead, htail⟩ := hs2
    cases ht : tick a s with
    | error er => simp
    | ok p =>
      obtain ⟨s', evs⟩ := p
      by_cases hf : syncFires a s
      · simp only [hf, if_true, List.map_append, List.map_cons, List.map_nil,
          List.count_append]
        by_cases hi : i = a.intervalId
        · subst hi
          have hlast2 : s'.lastGitPush = some a.intervalId := by
            rcases tick_ok_inv ht with ⟨hg, -, -, -⟩
            rw [hg]
            simp [hf]
          have h0 : ((syncFireTicks rest s').map TickEnv.intervalId).count a.intervalId = 0 :=
            List.count_eq_zero.mpr (syncFire_latch hlast2 hhead htail)
          simp [h0, List.count_cons]
        · have h1 : ([a.intervalId] : List Ts).count i = 0 := by
            simp [List.count_cons, Ne.symm hi]
          rw [h1, Nat.zero_add]
          exact ih htail
      · simp only [hf, if_false, List.nil_append]
        exact ih htail

theorem purgeFireTicks_subset {envs : List TickEnv} {s : LoopState} {e : TickEnv}
    (h : e ∈ purgeFireTicks envs s) : e ∈ envs := by
  induction envs generalizing s with
  | nil =>
    unfold purgeFireTicks at h
    cases h
  | cons a rest ih =>
    unfold purgeFireTicks at h
    cases ht : tick a s with
    | error er =>
      simp only [ht] at h
      cases h
    | ok p =>
      obtain ⟨s', evs⟩ := p
      simp only [ht] at h
      rcases List.mem_append.mp h with h' | h'
      · by_cases hf : purgeFires a s
        · simp [hf] at h'
          simp [h']
        · simp [hf] at h'
      · exact List.mem_cons_of_mem _ (ih h')

theorem purgeFires_true_ne {env : TickEnv} {s : LoopState}
    (h : purgeFires env s = true) : s.lastPurgeDay ≠ some env.nowDate := by
  simp only [purgeFires, bne_iff_ne] at h
  exact h

theorem purgeFire_latch {envs : List TickEnv} {s : LoopState} {i : Ts}
    (hlast : s.lastPurgeDay = some i)
    (hge : ∀ e ∈ envs, i ≤ e.nowDate)
    (hsorted : (envs.map TickEnv.nowDate).Pairwise (· ≤ ·)) :
    i ∉ (purgeFireTicks envs s).map TickEnv.nowDate := by
  induction envs generalizing s with
  | nil =>
    unfold purgeFireTicks
    simp
  | cons a rest ih =>
    unfold purgeFireTicks
    have hs2 : (∀ b ∈ rest, a.nowDate ≤ b.nowDate) ∧
        (rest.map TickEnv.nowDate).Pairwise (· ≤ ·) := by
      simpa using hsorted
    obtain ⟨hhead, htail⟩ := hs2
    cases ht : tick a s with
    | error er => simp
    | ok p =>
      obtain ⟨s', evs⟩ := p
      by_cases hf : purgeFires a s
      · have hne : i ≠ a.nowDate := fun e => purgeFires_true_ne hf (by rw [hlast, e])
        have hlt : i < a.nowDate := lt_of_le_of_ne (hge a (List.mem_cons_self a rest)) hne
        simp only [hf, if_true, List.map_append, List.map_cons]
        intro hmem
        rcases List.mem_append.mp hmem with h' | h'
        · exact hne (by simpa using h')
        · rcases List.mem_map.mp h' with ⟨e', he', hei⟩
          have he2 : e' ∈ rest := purgeFireTicks_subset he'
          have hlt2 : i < e'.nowDate := lt_of_lt_of_le hlt (hhead _ he2)
          rw [hei] at hlt2
          exact lt_irrefl i hlt2
      · have hlast2 : s'.lastPurgeDay = some i := by
          rcases tick_ok_inv ht with ⟨-, hg, -, -⟩
          rw [hg]
          simp [hf, hlast]
        simp only [hf, if_false, List.nil_append]
        exact ih hlast2 (fun e he => hge e (List.mem_cons_of_mem _ he)) htail

theorem purgeFire_count {envs : List TickEnv} {s : LoopState}
    (hsorted : (envs.map TickEnv.nowDate).Pairwise (· ≤ ·)) (i : Ts) :
    ((purgeFireTicks envs s).map TickEnv.nowDate).count i ≤ 1 := by
  induction envs generalizing s with
  | nil =>
    unfold purgeFireTicks
    simp
  | cons a rest ih =>
    unfold purgeFireTicks
    have hs2 : (∀ b ∈ rest, a.nowDate ≤ b.nowDate) ∧
        (rest.map TickEnv.nowDate).Pairwise (· ≤ ·) := by
      simpa using hsorted
    obtain ⟨hhead, htail⟩ := hs2
    cases ht : tick a s with
    | error er => simp
    | ok p =>
      obtain ⟨s', evs⟩ := p
      by_cases hf : purgeFires a s
      · simp only [hf, if_true, List.map_append, List.map_cons, List.map_nil,
          List.count_append]
        by_cases hi : i = a.nowDate
        · subst hi
          have hlast2 : s'.lastPurgeDay = some a.nowDate := by
            rcases tick_ok_inv ht with ⟨-, hg, -, -⟩
            rw [hg]
            simp [hf]
          have h0 : ((purgeFireTicks rest s').map TickEnv.nowDate).count a.nowDate = 0 :=
            List.count_eq_zero.mpr (purgeFire_latch hlast2 hhead htail)
          simp [h0, List.count_cons]
        · have h1 : ([a.nowDate] : List Ts).count i = 0 := by
            simp [List.count_cons, Ne.symm hi]
          rw [h1, Nat.zero_add]
          exact ih htail
      · simp only [hf, if_false, List.nil_append]
        exact ih htail

theorem runLoop_connCount {envs : List TickEnv} {s sL : LoopState} {evsL : List Ev}
    (h : runLoop envs s = .ok (sL, evsL)) :
    evsL.count Ev.connOpen = (syncFireTicks envs s).length ∧
    evsL.count Ev.connClose = (syncFireTicks envs s).length := by
  induction envs generalizing s evsL sL with
  | nil =>
    unfold runLoop at h
    simp only [Except.ok.injEq, Prod.mk.injEq] at h
    obtain ⟨-, he⟩ := h
    subst he
    unfold syncFireTicks
    simp
  | cons a rest ih =>
    unfold runLoop at h
    cases ht : tick a s with
    | error er =>
      simp only [ht] at h
      exact Except.noConfusion h
    | ok p =>
      obtain ⟨s', evs⟩ := p
      simp only [ht] at h
      cases hr : runLoop rest s' with
      | error er =>
        rw [hr] at h
        exact Except.noConfusion h
      | ok q =>
        obtain ⟨s'', evs'⟩ := q
        rw [hr] at h
        simp only [Except.ok.injEq, Prod.mk.injEq] at h
        obtain ⟨-, he⟩ := h
        subst he
        rcases tick_ok_inv ht with ⟨-, -, hco, hcc⟩
        rcases ih hr with ⟨ho, hc⟩
        unfold syncFireTicks
        rw [ht]
        constructor
        · rw [List.count_append, hco, ho]
          by_cases hf : syncFires a s <;> simp [hf, Nat.add_comm]
        · rw [List.count_append, hcc, hc]
          by_cases hf : syncFires a s <;> simp [hf, Nat.add_comm]

theorem syncFireTicks_minute {envs : List TickEnv} {s : LoopState} {e : TickEnv}
    (h : e ∈ syncFireTicks envs s) : e.nowMinute % 30 = 0 := by
  induction envs generalizing s with
  | nil =>
    unfold syncFireTicks at h
    cases h
  | cons a rest ih =>
    unfold syncFireTicks at h
    cases ht : tick a s with
    | error er =>
      simp only [ht] at h
      cases h
    | ok p =>
      obtain ⟨s', evs⟩ := p
      simp only [ht] at h
      rcases List.mem_append.mp h with h' | h'
      · by_cases hf : syncFires a s
        · simp only [hf, if_true, List.mem_singleton] at h'
          subst h'
          simp only [syncFires, Bool.and_eq_true, beq_iff_eq] at hf
          exact hf.1
        · simp [hf] at h'
      · exact ih h'

theorem export_events_shape (store : List Reading) (cutoff : Ts)
    (prior : Option CsvFile) :
    (export_last_week store cutoff prior).events =
      [Ev.connOpen, Ev.connClose, Ev.alert "[CSV WEEKLY] No data found"] ∨
    (export_last_week store cutoff prior).events =
      [Ev.connOpen, Ev.connClose,
       Ev.alert ("[CSV WEEKLY] Updated (" ++
         toString (queryRangeAsc store cutoff).length ++ " rows)")] := by
  unfold export_last_week log_alert
  dsimp only
  split
  · left
    rfl
  · right
    rfl

theorem updated_ne_skip (t : String) :
    "[CSV WEEKLY] Updated (" ++ t ++ " rows)" ≠ "[GIT] Offline, push skipped" := by
  intro h
  have h2 := congrArg String.data h
  rw [String.data_append, String.data_append] at h2
  have h3 : "[CSV WEEKLY] Updated (".data =
      '[' :: 'C' :: "SV WEEKLY] Updated (".data := rfl
  have h4 : "[GIT] Offline, push skipped".data =
      '[' :: 'G' :: "IT] Offline, push skipped".data := rfl
  rw [h3, h4] at h2
  simp at h2

theorem shutdownStep_connCount (s : LoopState) :
    (shutdownStep s).2.count Ev.connOpen = 0 ∧
    (shutdownStep s).2.count Ev.connClose = 1 := by
  unfold shutdownStep log_alert
  split <;> simp [List.count_cons]

/-- Claim C1: on every tick, the flush block executes exactly when the
in-memory batch holds at least DB_BATCH_SIZE (5) readings or at least
DB_FLUSH_INTERVAL (300) seconds of monotonic time have elapsed since
the last flush; when it executes and the commit succeeds, the entire
batch is inserted into the store and the batch is cleared and the
flush mark reset; when the commit fails, the fault propagates and the
batch is neither cleared nor the mark reset. -/
theorem claim_C1_flush_trigger (env : TickEnv) (s : LoopState) :
    (¬ (DB_BATCH_SIZE ≤ s.buffer.length ∨
        DB_FLUSH_INTERVAL ≤ env.monoC - s.lastFlush) →
      flushStep env s = .ok (s, [])) ∧
    ((DB_BATCH_SIZE ≤ s.buffer.length ∨
        DB_FLUSH_INTERVAL ≤ env.monoC - s.lastFlush) →
      env.dbOk = true →
      flushStep env s = .ok ({ s with
          store := insertReadings s.store s.buffer,
          buffer := [],
          lastFlush := env.monoD }, [Ev.commit])) ∧
    ((DB_BATCH_SIZE ≤ s.buffer.length ∨
        DB_FLUSH_INTERVAL ≤ env.monoC - s.lastFlush) →
      env.dbOk = false →
      flushStep env s = .error .dbError) := by
  refine ⟨?_, ?_, ?_⟩
  · intro h
    simp [flushStep, h]
  · intro h hdb
    simp [flushStep, h, hdb]
  · intro h hdb
    simp [flushStep, h, hdb]

theorem claim_C1_witness :
    flushStep wEnv wBuf5 = .ok ({ wBuf5 with
        store := insertReadings wBuf5.store wBuf5.buffer,
        buffer := [],
        lastFlush := wEnv.monoD }, [Ev.commit]) :=
  (claim_C1_flush_trigger wEnv wBuf5).2.1 (by decide) rfl

/-- Claim C2: batch insert is idempotent: for every store with unique
keys and every reading whose timestamp already exists in the store,
inserting that reading again leaves the store unchanged (a no-op, not
an error), and the store holds exactly one row for that timestamp. -/
theorem claim_C2_insert_idempotent (store : List Reading) (r : Reading)
    (huniq : keysNodup store) (hdup : ∃ q ∈ store, q.timestamp = r.timestamp) :
    insertOrIgnore store r = store ∧
    (insertOrIgnore store r).countP
      (fun q => decide (q.timestamp = r.timestamp)) = 1 := by
  have hany : store.any (fun q => q.timestamp == r.timestamp) = true := by
    rcases hdup with ⟨q, hq, ht⟩
    exact List.any_eq_true.mpr ⟨q, hq, by simp [ht]⟩
  have heq : insertOrIgnore store r = store := by
    unfold insertOrIgnore
    rw [if_pos hany]
  refine ⟨heq, ?_⟩
  rw [heq]
  exact countP_ts_eq_one huniq hdup

theorem claim_C2_witness :
    insertOrIgnore [wr 'a'] (Reading.mk ['a'] 1 2 3 4) = [wr 'a'] ∧
    (insertOrIgnore [wr 'a'] (Reading.mk ['a'] 1 2 3 4)).countP
      (fun q => decide (q.timestamp = ['a'])) = 1 :=
  claim_C2_insert_idempotent [wr 'a'] (Reading.mk ['a'] 1 2 3 4)
    (by unfold keysNodup; decide) ⟨wr 'a', by decide, rfl⟩

/-- Claim C3: for every prior store state, after purge_old_data runs
every reading with timestamp strictly below the cutoff (now minus 365
days) is absent from the store, and every reading with timestamp at or
above the cutoff is still present. -/
theorem claim_C3_purge_retention (store : List Reading) (cutoff : Ts) :
    (∀ r ∈ store, r.timestamp < cutoff →
      r ∉ (purge_old_data store cutoff).1) ∧
    (∀ r ∈ store, cutoff ≤ r.timestamp →
      r ∈ (purge_old_data store cutoff).1) := by
  constructor
  · intro r hr hlt hmem
    unfold purge_old_data at hmem
    rcases List.mem_filter.mp hmem with ⟨-, hcond⟩
    simp only [decide_eq_true_eq] at hcond
    exact hcond hlt
  · intro r hr hle
    unfold purge_old_data
    exact List.mem_filter.mpr ⟨hr, by simp [not_lt.mpr hle]⟩

theorem claim_C3_witness :
    wr 'a' ∉ (purge_old_data [wr 'a', wr 'c'] ['b']).1 ∧
    wr 'c' ∈ (purge_old_data [wr 'a', wr 'c'] ['b']).1 :=
  ⟨(claim_C3_purge_retention [wr 'a', wr 'c'] ['b']).1 (wr 'a')
      (by decide) (by decide),
   (claim_C3_purge_retention [wr 'a', wr 'c'] ['b']).2 (wr 'c')
      (by decide) (by decide)⟩

/-- Claim C4: on an external interrupt after any completed run of the
loop, the program performs the interrupt handler exactly once on the
final loop state: every reading of a non-empty batch ends up in the
store (inserted and committed before the connection closes), the
events of the handler are exactly one commit (when the batch is
non-empty) followed by the connection close and the final alert, and
the loop is not re-entered (the program result is the handler applied
once to the final loop state). -/
theorem claim_C4_shutdown_drain (store0 : List Reading) (csv0 : Option CsvFile)
    (m0 : Nat) (envs : List TickEnv) (sL : LoopState) (evsL : List Ev)
    (h : runLoop envs (initState store0 csv0 m0) = .ok (sL, evsL)) :
    runProgram store0 csv0 m0 envs =
      .ok ((shutdownStep sL).1, startupEvs ++ evsL ++ (shutdownStep sL).2) ∧
    (∀ r ∈ sL.buffer, ∃ q ∈ (shutdownStep sL).1.store,
      q.timestamp = r.timestamp) ∧
    (sL.buffer ≠ [] → (shutdownStep sL).2 =
      [Ev.commit, Ev.connClose, Ev.alert "Logger stopped cleanly"]) ∧
    (sL.buffer = [] → (shutdownStep sL).2 =
      [Ev.connClose, Ev.alert "Logger stopped cleanly"]) := by
  refine ⟨?_, ?_, ?_, ?_⟩
  · unfold runProgram
    rw [h]
  · intro r hr
    unfold shutdownStep
    by_cases hb : sL.buffer.isEmpty
    · rw [List.isEmpty_iff] at hb
      rw [hb] at hr
      cases hr
    · rw [if_neg hb]
      exact insertReadings_covers hr
  · intro hne
    unfold shutdownStep log_alert
    rw [if_neg (by simpa [List.isEmpty_iff] using hne)]
    rfl
  · intro he
    unfold shutdownStep log_alert
    rw [if_pos (by simpa [List.isEmpty_iff] using he)]
    rfl

theorem claim_C4_witness :
    runProgram [] none 0 [] =
      .ok ((shutdownStep (initState [] none 0)).1,
        startupEvs ++ [] ++ (shutdownStep (initState [] none 0)).2) ∧
    (shutdownStep (initState [] none 0)).2 =
      [Ev.connClose, Ev.alert "Logger stopped cleanly"] := by
  have h := claim_C4_shutdown_drain [] none 0 [] (initState [] none 0) [] rfl
  exact ⟨h.1, h.2.2.2 rfl⟩

/-- Claim C5 counterexample: on a tick whose sample is due and whose
sensor read raises, the whole process run aborts with the sensor
fault: no AlertLog entry is produced for it and the fault unwinds past
the tick, contradicting the claim that the fault is converted into an
AlertLog entry and does not unwind. -/
theorem claim_C5_counterexample :
    runProgram [] none 0 [wEnvFault] = .error .sensorFault := by decide

/-- Claim C5 (amended): on every tick on which the sample action fires
and the sensor read raises, no reading (partial or otherwise) is
appended and no AlertLog entry is produced; the fault is not caught
(the loop handles only the interrupt signal), so it unwinds out of the
main loop and sampling does not resume on later ticks. -/
theorem claim_C5_sensor_fault_unwinds (env : TickEnv) (s : LoopState)
    (rest : List TickEnv) (hdue : LOG_INTERVAL ≤ env.monoA - s.lastLog)
    (hf : env.sensor = none) :
    tick env s = .error .sensorFault ∧
    runLoop (env :: rest) s = .error .sensorFault := by
  have hsample : sampleStep env s = .error .sensorFault := by
    unfold sampleStep
    rw [if_pos hdue, hf]
  have ht : tick env s = .error .sensorFault := by
    unfold tick
    rw [hsample]
  refine ⟨ht, ?_⟩
  unfold runLoop
  rw [ht]

theorem claim_C5_witness :
    tick wEnvFault (initState [] none 0) = .error .sensorFault ∧
    runLoop [wEnvFault] (initState [] none 0) = .error .sensorFault :=
  claim_C5_sensor_fault_unwinds wEnvFault (initState [] none 0) []
    (by decide) rfl

/-- Claim C6: the sync action fires only on ticks whose wall-clock
minute is a multiple of 30 and whose (date, hour, minute) identifier
differs from the identifier of the last successful-or-attempted fire;
consequently, over any run whose identifiers are chronologically
nondecreasing, the synchronization side effect executes at most once
within any single identifier. -/
theorem claim_C6_sync_dedup (envs : List TickEnv) (s : LoopState)
    (hsorted : (envs.map TickEnv.intervalId).Pairwise (· ≤ ·)) :
    (∀ e ∈ syncFireTicks envs s, e.nowMinute % 30 = 0) ∧
    (∀ env st, syncFires env st = true ↔
      (env.nowMinute % 30 = 0 ∧ st.lastGitPush ≠ some env.intervalId)) ∧
    (∀ i : Ts,
      ((syncFireTicks envs s).map TickEnv.intervalId).count i ≤ 1) := by
  refine ⟨?_, ?_, ?_⟩
  · intro e he
    exact syncFireTicks_minute he
  · intro env st
    simp [syncFires, Bool.and_eq_true, beq_iff_eq, bne_iff_ne]
  · exact fun i => syncFire_count hsorted i

theorem claim_C6_witness :
    ((syncFireTicks [wEnvSync, wEnvSync] (initState [] none 0)).map
      TickEnv.intervalId).count "i".toList ≤ 1 :=
  (claim_C6_sync_dedup [wEnvSync, wEnvSync] (initState [] none 0)
    (by decide)).2.2 "i".toList

/-- Claim C7: when the connectivity probe reports the host unreachable,
push_git produces exactly one AlertLog entry noting the skip and
invokes no git subprocess (no add, commit or push command runs). -/
theorem claim_C7_offline_skip (store : List Reading) (cutoff : Ts)
    (prior : Option CsvFile) (git : GitResult) :
    (push_git store cutoff prior false git).events.count
      (Ev.alert "[GIT] Offline, push skipped") = 1 ∧
    (∀ c : String, Ev.git c ∉ (push_git store cutoff prior false git).events) := by
  have hshape := export_events_shape store cutoff prior
  have hev : (push_git store cutoff prior false git).events =
      (export_last_week store cutoff prior).events ++
        [Ev.alert "[GIT] Offline, push skipped"] := by
    unfold push_git log_alert
    rfl
  constructor
  · rw [hev, List.count_append]
    rcases hshape with he | he <;> rw [he] <;>
      simp [List.count_cons, updated_ne_skip]
  · intro c
    rw [hev]
    intro hmem
    rcases List.mem_append.mp hmem with h' | h'
    · rcases hshape with he | he <;> rw [he] at h' <;> simp at h'
    · simp at h'

/-- Claim C8: for every prior store state, exporting the 7-day window
writes a file containing the header row followed by one row per
reading whose timestamp lies in the window, ordered ascending by
timestamp and fully overwriting any prior file; when the window holds
zero rows the outcome is the no-data alert (not an error) and the
destination file is left untouched. -/
theorem claim_C8_export_window (store : List Reading) (cutoff : Ts)
    (prior : Option CsvFile) :
    (queryRangeAsc store cutoff = [] →
      (export_last_week store cutoff prior).file = prior ∧
      (export_last_week store cutoff prior).events =
        [Ev.connOpen, Ev.connClose, Ev.alert "[CSV WEEKLY] No data found"]) ∧
    (queryRangeAsc store cutoff ≠ [] →
      (export_last_week store cutoff prior).file =
        some (csvHeader :: (queryRangeAsc store cutoff).map Reading.toRow) ∧
      List.Sorted tsLE (queryRangeAsc store cutoff) ∧
      (∀ r : Reading, r ∈ queryRangeAsc store cutoff ↔
        r ∈ store ∧ cutoff ≤ r.timestamp) ∧
      (queryRangeAsc store cutoff).length =
        (store.filter (fun r => decide (cutoff ≤ r.timestamp))).length) := by
  constructor
  · intro h
    unfold export_last_week log_alert
    dsimp only
    rw [if_pos (by simpa [List.isEmpty_iff] using h)]
    exact ⟨rfl, rfl⟩
  · intro h
    unfold export_last_week log_alert
    dsimp only
    rw [if_neg (by simpa [List.isEmpty_iff] using h)]
    exact ⟨rfl, sorted_queryRangeAsc store cutoff,
      fun r => mem_queryRangeAsc, length_queryRangeAsc store cutoff⟩

theorem claim_C8_witness :
    (export_last_week [wr 'b'] "a".toList none).file =
      some (csvHeader :: (queryRangeAsc [wr 'b'] "a".toList).map Reading.toRow) :=
  ((claim_C8_export_window [wr 'b'] "a".toList none).2 (by decide)).1

/-- Claim C9 counterexample: a run with one sync fire opens the store
connection twice (once at startup and once inside the exporter), so
the connection is not opened exactly once and a second connection is
opened while the process runs. -/
theorem claim_C9_counterexample :
    (match runProgram [] none 0 [wEnvSync] with
     | .ok p => p.2.count Ev.connOpen
     | .error _ => 0) = 2 ∧
    ¬ ((match runProgram [] none 0 [wEnvSync] with
        | .ok p => p.2.count Ev.connOpen
        | .error _ => 0) = 1) := by
  constructor <;> decide

/-- Claim C9 (amended): over every completed run, the long-lived store
connection is opened once at startup and closed once at shutdown, and
in addition the exporter opens and closes one short-lived connection
per sync fire: the total number of connection opens, and of closes, is
one plus the number of sync fires. -/
theorem claim_C9_conn_count (store0 : List Reading) (csv0 : Option CsvFile)
    (m0 : Nat) (envs : List TickEnv) (sE : LoopState) (evsE : List Ev)
    (h : runProgram store0 csv0 m0 envs = .ok (sE, evsE)) :
    evsE.count Ev.connOpen =
      1 + (syncFireTicks envs (initState store0 csv0 m0)).length ∧
    evsE.count Ev.connClose =
      1 + (syncFireTicks envs (initState store0 csv0 m0)).length := by
  unfold runProgram at h
  cases hr : runLoop envs (initState store0 csv0 m0) with
  | error er =>
    simp only [hr] at h
    exact Except.noConfusion h
  | ok p =>
    obtain ⟨sL, evsL⟩ := p
    simp only [hr] at h
    simp only [Except.ok.injEq, Prod.mk.injEq] at h
    obtain ⟨-, he⟩ := h
    subst he
    rcases runLoop_connCount hr with ⟨ho, hc⟩
    rcases shutdownStep_connCount sL with ⟨so, sc⟩
    constructor
    · rw [List.count_append, List.count_append, ho, so]
      simp [startupEvs, log_alert, List.count_cons]
    · rw [List.count_append, List.count_append, hc, sc]
      simp [startupEvs, log_alert, List.count_cons, Nat.add_comm]

theorem claim_C9_witness :
    (match runProgram [] none 0 [wEnvSync] with
     | .ok p => p.2.count Ev.connOpen
     | .error _ => 0) =
      1 + (syncFireTicks [wEnvSync] (initState [] none 0)).length := by
  have hrun : ∃ p, runProgram [] none 0 [wEnvSync] = .ok p := ⟨_, rfl⟩
  rcases hrun with ⟨⟨sE, evsE⟩, hp⟩
  have h := claim_C9_conn_count [] none 0 [wEnvSync] sE evsE hp
  rw [hp]
  exact h.1

/-- Claim C10: the purge-day marker starts unset, so on the first
iteration of every process run the purge due-condition holds and (when
the first tick completes) the purge runs and logs its alert; within
one run with chronologically nondecreasing dates, the purge fires at
most once per calendar day. -/
theorem claim_C10_purge_restart (store0 : List Reading) (csv0 : Option CsvFile)
    (m0 : Nat) (env0 : TickEnv) (envs : List TickEnv)
    (hsorted : ((env0 :: envs).map TickEnv.nowDate).Pairwise (· ≤ ·)) :
    purgeFires env0 (initState store0 csv0 m0) = true ∧
    (∀ s1 evs, tick env0 (initState store0 csv0 m0) = .ok (s1, evs) →
      Ev.alert "[DB] Old data purged" ∈ evs ∧
      s1.lastPurgeDay = some env0.nowDate) ∧
    (∀ d : Ts, ((purgeFireTicks (env0 :: envs)
        (initState store0 csv0 m0)).map TickEnv.nowDate).count d ≤ 1) := by
  have hp : purgeFires env0 (initState store0 csv0 m0) = true := by
    simp [purgeFires, initState]
  refine ⟨hp, ?_, ?_⟩
  · intro s1 evs h
    refine ⟨tick_ok_purge_alert h hp, ?_⟩
    rcases tick_ok_inv h with ⟨-, hg, -, -⟩
    rw [hg, if_pos hp]
  · exact fun d => purgeFire_count hsorted d

theorem claim_C10_witness :
    purgeFires wEnvSync (initState [] none 0) = true ∧
    ((purgeFireTicks [wEnvSync, wEnvSync] (initState [] none 0)).map
      TickEnv.nowDate).count "d".toList ≤ 1 := by
  have h := claim_C10_purge_restart [] none 0 wEnvSync [wEnvSync] (by decide)
  exact ⟨h.1, h.2.2 "d".toList⟩

end WeatherLogger
